import Mathlib

/-!
Shallow embedding of the `gb` multi-repository git tool, package `core`:
the sync state machine (`processSingleReset` and its helpers, reset module),
the retry/timeout command executors (branch module), the destructive-operation
gate and the result aggregation of `syncBranch`, and an abstract transition
system for the bounded worker-pool dispatcher.

External git commands are modelled by an environment record (`GitRepo`) that
fixes the outcome of each query the code can make, plus an explicit trace of
the external commands a code path executes.  The only mutation the sync state
machine depends on is that a successful `git fetch origin <branch>` refreshes
the local `origin/<branch>` ref; this is threaded as explicit state passing.
-/

namespace GB

/-- Repository reference as discovered by the catalog (`RepoInfo` in the source):
absolute path plus path relative to the scan root. -/
structure RepoInfo where
  path : String
  relPath : String
deriving DecidableEq, Repr

/-- Error produced by running an external command, as the code distinguishes
them: an `*exec.ExitError` carrying an exit code, or any other error. -/
inductive CmdErr where
  | exit (code : Nat)
  | sys (msg : String)
deriving DecidableEq, Repr

/-- External commands the sync state machine can execute.  Each code path of
the embedding returns, besides its result, the list of commands it ran, in
order; this makes claims of the form "command X is never executed on that
path" directly statable. -/
inductive GitCmd where
  | remoteGetUrl
  | revParseVerifyHead
  | branchShowCurrent
  | lsRemoteHeads (branch : String)
  | revParseHead
  | revParseOriginBranch (branch : String)
  | revParseIsShallow
  | fetchOrigin (branch : String) (depth1 : Bool)
  | statusPorcelain
  | diffCachedQuiet
  | resetHard (branch : String)
  | resetSoft (branch : String)
  | gitRebase (branch : String)
  | rebaseAbort
  | showRefVerify (branch : String)
  | gitSwitch (branch : String)
  | gitSwitchTrack (branch : String)
deriving DecidableEq, Repr

/-- Environment fixing the outcome of every external query made for one
repository during one `processSingleReset` run.  Raw command outputs are
stored untrimmed; the helper functions trim exactly where the source does. -/
structure GitRepo where
  /-- Whether `git remote get-url origin` exits 0. -/
  originExists : Bool
  /-- Whether `git rev-parse --verify HEAD` exits 0. -/
  hasCommits : Bool
  /-- Output of `git branch --show-current`; `none` means the command errored. -/
  showCurrent : Option String
  /-- Outcome of `git ls-remote --exit-code --heads origin <branch>`:
  `none` means exit 0 (branch found). -/
  lsRemoteHeads : Option CmdErr
  /-- Whether `.git/MERGE_HEAD` exists. -/
  mergeHeadPresent : Bool
  /-- Whether `.git/CHERRY_PICK_HEAD` exists. -/
  cherryPickHeadPresent : Bool
  /-- Whether `.git/REVERT_HEAD` exists. -/
  revertHeadPresent : Bool
  /-- Whether `.git/rebase-merge` exists. -/
  rebaseMergePresent : Bool
  /-- Whether `.git/rebase-apply` exists. -/
  rebaseApplyPresent : Bool
  /-- Output of `git rev-parse HEAD`; `none` means the command errored. -/
  headHash : Option String
  /-- Output of `git rev-parse origin/<branch>` — the repository's current
  local ref for the remote branch; `none` means the command errored. -/
  originRef : Option String
  /-- The value a successful `git fetch origin <branch>` installs as the
  local `origin/<branch>` ref (the remote's current tip). -/
  remoteHash : Option String
  /-- Whether `git fetch origin [--depth=1] <branch>` exits 0. -/
  fetchOk : Bool
  /-- Output of `git rev-parse --is-shallow-repository`; `none` means error. -/
  isShallowOut : Option String
  /-- Output of `git status --porcelain`; `none` means the command errored. -/
  statusPorcelain : Option String
  /-- Whether `git diff --cached --quiet` exits nonzero (staged changes). -/
  stagedQuietFails : Bool
  /-- Whether `git reset --hard origin/<branch>` exits 0. -/
  resetHardOk : Bool
  /-- Whether `git reset --soft origin/<branch>` exits 0. -/
  resetSoftOk : Bool
  /-- Whether `git rebase origin/<branch>` exits 0. -/
  rebaseOk : Bool
  /-- Whether `git rebase --abort` exits 0. -/
  rebaseAbortOk : Bool
  /-- Whether `git show-ref --verify refs/heads/<branch>` exits 0. -/
  localBranchExists : Bool
  /-- Whether `git switch <branch>` exits 0. -/
  switchOk : Bool
  /-- Whether `git switch -c <branch> --track origin/<branch>` exits 0. -/
  switchTrackOk : Bool
  /-- Output of `git rev-parse HEAD` after a successful switch onto the
  target branch (the target branch's tip). -/
  headHashAfterSwitch : Option String
deriving DecidableEq, Repr

/-- One repository's reset outcome (`ResetResult` in the source).  Field
defaults mirror Go zero values, as the source relies on them at every
construction site. -/
structure ResetResult where
  relPath : String
  success : Bool := false
  skipped : Bool := false
  skipReason : String := ""
  error : String := ""
  warning : String := ""
deriving DecidableEq, Repr

/-- Whitespace trimming as Go's `strings.TrimSpace` performs it: drop
whitespace from both ends.  Defined over the character list so that concrete
evaluations reduce. -/
def trimSpace (s : String) : String :=
  ⟨((s.data.dropWhile Char.isWhitespace).reverse.dropWhile Char.isWhitespace).reverse⟩

/-- Splitting on a single separator character, as Go's `strings.Split` with a
one-character separator behaves: `n` separators yield `n + 1` fields. -/
def splitOnChar (sep : Char) : List Char → List (List Char)
  | [] => [[]]
  | c :: rest =>
      let r := splitOnChar sep rest
      if c == sep then [] :: r
      else
        match r with
        | [] => [[c]]
        | h :: t => (c :: h) :: t

/-- Embedding of `checkOriginExists`: `git remote get-url origin` exits 0. -/
def checkOriginExists (s : GitRepo) : Bool :=
  s.originExists

/-- Embedding of `checkHasCommits`: `git rev-parse --verify HEAD` exits 0. -/
def checkHasCommits (s : GitRepo) : Bool :=
  s.hasCommits

/-- Embedding of `checkDetachedHEAD`: runs `git branch --show-current`;
a command error counts as detached, otherwise detached iff the trimmed
output is empty. -/
def checkDetachedHEAD (s : GitRepo) : Bool :=
  match s.showCurrent with
  | none => true
  | some out => trimSpace out == ""

/-- Embedding of `checkBranchOnOrigin`: `git ls-remote --exit-code --heads
origin <branch>`.  Exit 0 means found; an `ExitError` with code 2 means the
branch is absent (not an error); any other exit code or error is reported as
a remote query error. -/
def checkBranchOnOrigin (s : GitRepo) : Bool × Option String :=
  match s.lsRemoteHeads with
  | none => (true, none)
  | some (CmdErr.exit code) =>
      if code == 2 then (false, none)
      else (false, some ("ls-remote failed with exit code " ++ toString code))
  | some (CmdErr.sys msg) => (false, some msg)

/-- Embedding of `getCurrentBranch`: trimmed output of
`git branch --show-current`, or an error. -/
def getCurrentBranch (s : GitRepo) : Option String :=
  match s.showCurrent with
  | none => none
  | some out => some (trimSpace out)

/-- Embedding of `checkMidOperation`: tests the three marker files in source
order and names the first operation found. -/
def checkMidOperation (s : GitRepo) : Bool × String :=
  if s.mergeHeadPresent then (true, "merge")
  else if s.cherryPickHeadPresent then (true, "cherry-pick")
  else if s.revertHeadPresent then (true, "revert")
  else (false, "")

/-- Embedding of `checkRebaseInProgress`: either rebase marker directory
exists. -/
def checkRebaseInProgress (s : GitRepo) : Bool :=
  s.rebaseMergePresent || s.rebaseApplyPresent

/-- Embedding of `checkAlreadyAtTarget`: compares the trimmed outputs of
`git rev-parse HEAD` and `git rev-parse origin/<branch>`; any command error
yields `false`. -/
def checkAlreadyAtTarget (s : GitRepo) : Bool :=
  match s.headHash with
  | none => false
  | some headOut =>
      match s.originRef with
      | none => false
      | some originOut => trimSpace headOut == trimSpace originOut

/-- Staged/unstaged classification of one `git status --porcelain` line:
first byte not space and not a question mark means staged, second byte not
space means unstaged; lines shorter than two bytes are ignored. -/
def classifyPorcelainLine (line : List Char) : Bool × Bool :=
  match line with
  | c0 :: c1 :: _ => (c0 != ' ' && c0 != '?', c1 != ' ')
  | _ => (false, false)

/-- Embedding of `getDirtyStatus`: returns a description of the dirty state,
or the empty string if clean.  A failure of `git status --porcelain` itself
returns the empty string, classifying the repository as clean. -/
def getDirtyStatus (s : GitRepo) : String :=
  match s.statusPorcelain with
  | none => ""
  | some out =>
      let trimmed := trimSpace out
      if trimmed == "" then ""
      else
        let lines := splitOnChar '\n' trimmed.data
        let hasStaged := lines.any fun line => (classifyPorcelainLine line).1
        let hasUnstaged := lines.any fun line => (classifyPorcelainLine line).2
        if hasStaged && hasUnstaged then "staged + unstaged changes"
        else if hasStaged then "staged changes"
        else if hasUnstaged then "unstaged changes"
        else "changes"

/-- Whether the repository reports itself shallow: trimmed output of
`git rev-parse --is-shallow-repository` equals "true" (errors count as not
shallow, as `cmd.Output` returning an error leaves the flag false). -/
def isShallowRepo (s : GitRepo) : Bool :=
  match s.isShallowOut with
  | none => false
  | some out => trimSpace out == "true"

/-- Embedding of `fetchBranchFromOrigin` (reset module): checks shallowness,
then runs a single `git fetch origin [--depth=1] <branch>` with no timeout
and no retry.  On success the local `origin/<branch>` ref now holds the
remote tip; on failure the error "fetch failed" is returned and the state is
unchanged.  The trace records the commands run. -/
def fetchBranchFromOrigin (branch : String) (s : GitRepo) :
    Option GitRepo × List GitCmd :=
  let depth1 := isShallowRepo s
  let tr := [GitCmd.revParseIsShallow, GitCmd.fetchOrigin branch depth1]
  if s.fetchOk then (some { s with originRef := s.remoteHash }, tr)
  else (none, tr)

/-- Embedding of `switchToTargetBranch`: if no local branch exists, fetch it
from origin first (propagating the fetch's state update and its failure);
then try `git switch`, falling back to creating a tracking branch; if both
fail the error "switch failed" is returned.  A successful switch moves HEAD
to the target branch's tip. -/
def switchToTargetBranch (branch : String) (s : GitRepo) :
    Option GitRepo × List GitCmd :=
  let afterFetch : Option GitRepo × List GitCmd :=
    if s.localBranchExists then (some s, [GitCmd.showRefVerify branch])
    else
      let (fetched, ftr) := fetchBranchFromOrigin branch s
      (fetched, GitCmd.showRefVerify branch :: ftr)
  match afterFetch with
  | (none, tr) => (none, tr)
  | (some s1, tr) =>
      if s1.switchOk then
        (some { s1 with headHash := s1.headHashAfterSwitch },
         tr ++ [GitCmd.gitSwitch branch])
      else if s1.switchTrackOk then
        (some { s1 with headHash := s1.headHashAfterSwitch },
         tr ++ [GitCmd.gitSwitch branch, GitCmd.gitSwitchTrack branch])
      else (none, tr ++ [GitCmd.gitSwitch branch, GitCmd.gitSwitchTrack branch])

/-- Embedding of `doHardReset`: skip if a merge/cherry-pick/revert marker is
present (the reset command is not run), otherwise run
`git reset --hard origin/<branch>`. -/
def doHardReset (repo : RepoInfo) (branch : String) (s : GitRepo) :
    ResetResult × List GitCmd :=
  if (checkMidOperation s).1 then
    ({ relPath := repo.relPath, skipped := true,
       skipReason := "mid-" ++ (checkMidOperation s).2 ++ " in progress" }, [])
  else if s.resetHardOk then
    ({ relPath := repo.relPath, success := true }, [GitCmd.resetHard branch])
  else
    ({ relPath := repo.relPath, error := "reset --hard failed" },
     [GitCmd.resetHard branch])

/-- Embedding of `doSoftReset`: record a warning if staged changes exist,
then run `git reset --soft origin/<branch>`. -/
def doSoftReset (repo : RepoInfo) (branch : String) (s : GitRepo) :
    ResetResult × List GitCmd :=
  let warning := if s.stagedQuietFails then "had staged changes before reset" else ""
  let tr := [GitCmd.diffCachedQuiet, GitCmd.resetSoft branch]
  if s.resetSoftOk then
    ({ relPath := repo.relPath, success := true, warning := warning }, tr)
  else
    ({ relPath := repo.relPath, error := "reset --soft failed" }, tr)

/-- Embedding of `doRebase`: skip if a rebase is already in progress; fail if
the working tree is dirty (no rebase attempted); otherwise rebase, and on
failure run `git rebase --abort`, distinguishing whether the abort itself
succeeded. -/
def doRebase (repo : RepoInfo) (branch : String) (s : GitRepo) :
    ResetResult × List GitCmd :=
  if checkRebaseInProgress s then
    ({ relPath := repo.relPath, skipped := true,
       skipReason := "rebase already in progress" }, [])
  else if getDirtyStatus s != "" then
    ({ relPath := repo.relPath, error := "working tree must be clean" },
     [GitCmd.statusPorcelain])
  else if s.rebaseOk then
    ({ relPath := repo.relPath, success := true },
     [GitCmd.statusPorcelain, GitCmd.gitRebase branch])
  else if s.rebaseAbortOk then
    ({ relPath := repo.relPath, error := "conflict during rebase, aborted" },
     [GitCmd.statusPorcelain, GitCmd.gitRebase branch, GitCmd.rebaseAbort])
  else
    ({ relPath := repo.relPath,
       error := "conflict during rebase; abort failed — manual cleanup required" },
     [GitCmd.statusPorcelain, GitCmd.gitRebase branch, GitCmd.rebaseAbort])

/-- Tail of `processSingleReset` after branch alignment: the up-to-date check
against the (possibly refreshed) `origin/<branch>` ref, then dispatch on the
mode string. -/
def afterAlign (repo : RepoInfo) (branch mode : String) (s : GitRepo)
    (tr : List GitCmd) : ResetResult × List GitCmd :=
  let tr := tr ++ [GitCmd.revParseHead, GitCmd.revParseOriginBranch branch]
  if checkAlreadyAtTarget s then
    ({ relPath := repo.relPath, skipped := true,
       skipReason := "already up to date" }, tr)
  else if mode == "hard" then
    ((doHardReset repo branch s).1, tr ++ (doHardReset repo branch s).2)
  else if mode == "soft" then
    ((doSoftReset repo branch s).1, tr ++ (doSoftReset repo branch s).2)
  else if mode == "rebase" then
    ((doRebase repo branch s).1, tr ++ (doRebase repo branch s).2)
  else
    ({ relPath := repo.relPath, error := "unknown mode" }, tr)

/-- Embedding of `processSingleReset`: the per-repository sync state machine.
Preconditions are evaluated in source order, each unmet one yielding an
immediate skip; a remote query error is a failure; then branch alignment
(switch, or fetch when already on the target branch), the up-to-date check,
and the mode-specific reset/rebase. -/
def processSingleReset (repo : RepoInfo) (branch mode : String) (s : GitRepo) :
    ResetResult × List GitCmd :=
  let tr := [GitCmd.remoteGetUrl]
  if !checkOriginExists s then
    ({ relPath := repo.relPath, skipped := true, skipReason := "no origin remote" }, tr)
  else
    let tr := tr ++ [GitCmd.revParseVerifyHead]
    if !checkHasCommits s then
      ({ relPath := repo.relPath, skipped := true, skipReason := "no commits" }, tr)
    else
      let tr := tr ++ [GitCmd.branchShowCurrent]
      if checkDetachedHEAD s then
        ({ relPath := repo.relPath, skipped := true, skipReason := "detached HEAD" }, tr)
      else
        let tr := tr ++ [GitCmd.lsRemoteHeads branch]
        match checkBranchOnOrigin s with
        | (_, some netErr) =>
            ({ relPath := repo.relPath, error := "network error: " ++ netErr }, tr)
        | (found, none) =>
            if !found then
              ({ relPath := repo.relPath, skipped := true,
                 skipReason := "branch not on origin" }, tr)
            else
              let tr := tr ++ [GitCmd.branchShowCurrent]
              match getCurrentBranch s with
              | none =>
                  ({ relPath := repo.relPath,
                     error := "failed to get current branch" }, tr)
              | some currentBranch =>
                  if currentBranch != branch then
                    match switchToTargetBranch branch s with
                    | (none, str) =>
                        ({ relPath := repo.relPath,
                           error := "switch to " ++ branch ++ " failed" }, tr ++ str)
                    | (some s1, str) => afterAlign repo branch mode s1 (tr ++ str)
                  else
                    match fetchBranchFromOrigin branch s with
                    | (none, ftr) =>
                        ({ relPath := repo.relPath, error := "fetch failed" },
                         tr ++ ftr)
                    | (some s1, ftr) => afterAlign repo branch mode s1 (tr ++ ftr)

/-- A healthy repository environment: origin present, commits present, on
branch "main", branch present on origin, clean tree, all commands succeed.
Used as the base point for concrete evaluations. -/
def sampleRepo : GitRepo where
  originExists := true
  hasCommits := true
  showCurrent := some "main\n"
  lsRemoteHeads := none
  mergeHeadPresent := false
  cherryPickHeadPresent := false
  revertHeadPresent := false
  rebaseMergePresent := false
  rebaseApplyPresent := false
  headHash := some "aaa111\n"
  originRef := some "bbb222\n"
  remoteHash := some "ccc333\n"
  fetchOk := true
  isShallowOut := some "false\n"
  statusPorcelain := some ""
  stagedQuietFails := false
  resetHardOk := true
  resetSoftOk := true
  rebaseOk := true
  rebaseAbortOk := true
  localBranchExists := true
  switchOk := true
  switchTrackOk := true
  headHashAfterSwitch := some "ddd444\n"

/-- A concrete repository reference for concrete evaluations. -/
def sampleRef : RepoInfo where
  path := "/work/alpha"
  relPath := "alpha"

/-- Prefix test on strings over the underlying character lists. -/
def strStartsWith (s pre : String) : Bool :=
  pre.data.isPrefixOf s.data

/-- One nanosecond, the unit of Go's `time.Duration`. -/
def nanosecond : Nat := 1

/-- Go's `time.Second` in nanoseconds. -/
def second : Nat := 1000000000 * nanosecond

/-- Go's `time.Minute` in nanoseconds. -/
def minute : Nat := 60 * second

/-- The per-attempt timeout constant `gitCommandTimeout = 5 * time.Minute`. -/
def gitCommandTimeout : Nat := 5 * minute

/-- The attempt bound constant `maxRetries = 3`. -/
def maxRetries : Nat := 3

/-- The inter-attempt delay constant `retryDelay = 2 * time.Second`. -/
def retryDelay : Nat := 2 * second

/-- Outcome of a single command attempt as the retry loop distinguishes
them: success (`lastErr == nil`), a failure with the attempt's context
expired (`cmdCtx.Err() != nil`, a timeout), or any other failure. -/
inductive AttemptOutcome where
  | ok (out : String)
  | timeoutErr (out errMsg : String)
  | failErr (out errMsg : String)
deriving DecidableEq, Repr

/-- Observable events of one retry-loop run: the i-th attempt was launched,
or the fixed `retryDelay` sleep happened. -/
inductive RetryEvent where
  | ran (attempt : Nat)
  | slept
deriving DecidableEq, Repr

/-- Return value of `executeGitCommandWithRetry` — combined output, error and
the retry count — together with the run's event trace. -/
structure RetryOutcome where
  output : String
  error : Option String
  retries : Nat
  events : List RetryEvent
deriving DecidableEq, Repr

/-- The retry loop of `executeGitCommandWithRetry`: at most `maxRetries`
iterations (the fuel mirrors the loop bound `attempt < maxRetries`); success
and non-timeout failures return immediately with the attempt's output and
index; a timeout sleeps and retries while `attempt < maxRetries-1`, and on
the last attempt falls out of the loop returning the last output, the last
error and `maxRetries - 1`. -/
def retryLoop (env : Nat → AttemptOutcome) :
    Nat → Nat → String → Option String → RetryOutcome
  | _, 0, lastOut, lastErr => ⟨lastOut, lastErr, maxRetries - 1, []⟩
  | attempt, fuel+1, _, _ =>
      match env attempt with
      | .ok out => ⟨out, none, attempt, [.ran attempt]⟩
      | .timeoutErr out errMsg =>
          if attempt < maxRetries - 1 then
            let r := retryLoop env (attempt+1) fuel out (some errMsg)
            ⟨r.output, r.error, r.retries, .ran attempt :: .slept :: r.events⟩
          else
            ⟨out, some errMsg, maxRetries - 1, [.ran attempt]⟩
      | .failErr out errMsg => ⟨out, some errMsg, attempt, [.ran attempt]⟩

/-- Embedding of `executeGitCommandWithRetry` (in-memory buffered mode): the
environment gives the outcome the i-th attempt would have under the
`gitCommandTimeout` deadline. -/
def executeGitCommandWithRetry (env : Nat → AttemptOutcome) : RetryOutcome :=
  retryLoop env 0 maxRetries "" none

/-- Whether an event is an attempt launch. -/
def isRanEvent : RetryEvent → Bool
  | .ran _ => true
  | .slept => false

/-- The retry loop of `executeGitCommandWithRetryToFile` (branch module):
identical control flow to `retryLoop`, but output is streamed to the log file
instead of being returned, so the return value is only the retry count and
the error. -/
def retryToFileLoop (env : Nat → AttemptOutcome) :
    Nat → Nat → Option String → Nat × Option String × List RetryEvent
  | _, 0, lastErr => (maxRetries - 1, lastErr, [])
  | attempt, fuel+1, _ =>
      match env attempt with
      | .ok _ => (attempt, none, [.ran attempt])
      | .timeoutErr _ errMsg =>
          if attempt < maxRetries - 1 then
            let r := retryToFileLoop env (attempt+1) fuel (some errMsg)
            (r.1, r.2.1, .ran attempt :: .slept :: r.2.2)
          else
            (maxRetries - 1, some errMsg, [.ran attempt])
      | .failErr _ errMsg => (attempt, some errMsg, [.ran attempt])

/-- Embedding of `executeGitCommandWithRetryToFile`: the dedicated log-file
streaming executor of the branch module. -/
def executeGitCommandWithRetryToFile (env : Nat → AttemptOutcome) :
    Nat × Option String × List RetryEvent :=
  retryToFileLoop env 0 maxRetries none

/-- Behaviour of one external process invocation when left unconstrained:
how long it would run, whether it would then exit 0, and its output and
error text.  An executor that imposes the `gitCommandTimeout` deadline kills
the process when `duration` exceeds it; an executor without a deadline waits
`duration` and observes the exit status. -/
structure AttemptSpec where
  duration : Nat
  succeeds : Bool
  out : String
  errMsg : String
deriving DecidableEq, Repr

/-- The outcome an attempt presents to the retry executors, which run it
under a `context.WithTimeout(ctx, gitCommandTimeout)` deadline. -/
def attemptOutcome (a : AttemptSpec) : AttemptOutcome :=
  if gitCommandTimeout < a.duration then
    AttemptOutcome.timeoutErr a.out "context deadline exceeded"
  else if a.succeeds then AttemptOutcome.ok a.out
  else AttemptOutcome.failErr a.out a.errMsg

/-- Invocation behaviour of `fetchBranchFromOrigin` (reset module): the
`git fetch` command is launched once via `cmd.Run()` with no context and no
deadline — the process runs to completion however long it takes — and any
failure is mapped to the single error "fetch failed"; there is no retry. -/
def fetchStreamExec (specs : Nat → AttemptSpec) : Option String × List RetryEvent :=
  (if (specs 0).succeeds then none else some "fetch failed", [RetryEvent.ran 0])

/-- A command whose first run would take 6 minutes and fail, and whose second
run would succeed quickly. -/
def cexSpecs : Nat → AttemptSpec := fun i =>
  if i == 0 then ⟨6 * minute, false, "", "signal: killed"⟩
  else ⟨1 * second, true, "fetch done", ""⟩

/-- Abstraction of `Config` as the sync path consumes it: whether any
include/skip set was configured, and the per-path verdict of
`shouldExecuteInRepo`.  The path-matching logic itself belongs to the
out-of-scope filtering collaborator. -/
structure Config where
  hasIncludeSet : Bool
  hasSkipSet : Bool
  shouldExec : String → Bool

/-- Embedding of `Config.filterReposForExecution`: with no configured set the
list is returned unchanged, otherwise each repository is kept iff
`shouldExecuteInRepo` accepts its relative path. -/
def filterReposForExecution (cfg : Config) (repos : List RepoInfo) : List RepoInfo :=
  if !cfg.hasIncludeSet && !cfg.hasSkipSet then repos
  else repos.filter fun r => cfg.shouldExec r.relPath

/-- Environment of one `syncBranch` run: the discovery result (`none` models
a `findGitRepos` error), whether standard input is a character device, the
confirmation verdict, whether the log manager could be created, and the git
world of each repository. -/
structure SyncEnv where
  discovered : Option (List RepoInfo)
  stdinIsTTY : Bool
  confirm : Bool
  logManagerOk : Bool
  repoEnv : RepoInfo → GitRepo

/-- Outcome of a `syncBranch` run: a fatal `os.Exit(1)` before dispatch, an
early normal return, a user abort at the confirmation prompt, or a completed
dispatch with its results and whether the final `os.Exit(1)` fires. -/
inductive SyncOutcome where
  | fatalExit (msg : String)
  | earlyReturn (msg : String)
  | abortedRun
  | finished (results : List ResetResult) (exitOne : Bool)
deriving DecidableEq, Repr

/-- The aggregation loop of `syncBranch`: each drained result increments
exactly one of succeeded/failed/skipped, the skip case taking priority over
the success flag.  Components: (succeeded, failed, skipped). -/
def aggregate (results : List ResetResult) : Nat × Nat × Nat :=
  results.foldl
    (fun acc res =>
      if res.skipped then (acc.1, acc.2.1, acc.2.2 + 1)
      else if res.success then (acc.1 + 1, acc.2.1, acc.2.2)
      else (acc.1, acc.2.1 + 1, acc.2.2))
    (0, 0, 0)

/-- Sequential denotation of the dispatch phase: every selected repository's
operation runs exactly once, results in discovery order.  (Concurrent
interleavings are modelled by the worker-pool transition system below; the
aggregation's counts and the exit verdict are order-invariant.)  The second
component is the run's command trace tagged by repository. -/
def runDispatch (branch mode : String) (repos : List RepoInfo) (env : SyncEnv) :
    List ResetResult × List (String × GitCmd) :=
  (repos.map fun r => (processSingleReset r branch mode (env.repoEnv r)).1,
   repos.flatMap fun r =>
     ((processSingleReset r branch mode (env.repoEnv r)).2).map fun c => (r.relPath, c))

/-- Embedding of `syncBranch`'s control flow: discovery, emptiness checks,
the destructive-operation gate (TTY check, preflight scan, confirmation) for
the hard and rebase modes only, log-manager creation, dispatch and
aggregation, and the final exit verdict `failed > 0`. -/
def syncBranch (branch mode : String) (workers : Nat) (cfg : Config)
    (env : SyncEnv) : SyncOutcome × List (String × GitCmd) :=
  match env.discovered with
  | none => (SyncOutcome.fatalExit "discovery failed", [])
  | some allRepos =>
      if allRepos.length == 0 then (SyncOutcome.earlyReturn "No repos found", [])
      else
        let repos := filterReposForExecution cfg allRepos
        if repos.length == 0 then
          (SyncOutcome.earlyReturn "No repos match the specified include/exclude criteria",
           [])
        else
          if mode == "hard" || mode == "rebase" then
            if !env.stdinIsTTY then
              (SyncOutcome.fatalExit "stdin is not a terminal", [])
            else
              let preTrace := repos.map fun r => (r.relPath, GitCmd.statusPorcelain)
              if !env.confirm then (SyncOutcome.abortedRun, preTrace)
              else if !env.logManagerOk then
                (SyncOutcome.fatalExit "log manager", preTrace)
              else
                (SyncOutcome.finished (runDispatch branch mode repos env).1
                   (0 < (aggregate (runDispatch branch mode repos env).1).2.1),
                 preTrace ++ (runDispatch branch mode repos env).2)
          else
            if !env.logManagerOk then (SyncOutcome.fatalExit "log manager", [])
            else
              (SyncOutcome.finished (runDispatch branch mode repos env).1
                 (0 < (aggregate (runDispatch branch mode repos env).1).2.1),
               (runDispatch branch mode repos env).2)

/-- A one-repository environment for concrete sync runs. -/
def sampleEnv : SyncEnv where
  discovered := some [sampleRef]
  stdinIsTTY := true
  confirm := true
  logManagerOk := true
  repoEnv := fun _ => sampleRepo

/-- A configuration with no include or skip sets. -/
def sampleCfg : Config where
  hasIncludeSet := false
  hasSkipSet := false
  shouldExec := fun _ => true

/-- State of one run of `syncBranch`'s worker pool: the repositories still
queued on the repo channel, those currently held by busy workers, and the
(repository, result) records already delivered to the result channel. -/
structure PoolState where
  pending : List RepoInfo
  inFlight : List RepoInfo
  results : List (RepoInfo × ResetResult)

/-- Interleaving semantics of the worker pool in `syncBranch`: the repo
channel is pre-filled with all repositories and closed, and each of the `W`
workers loops "receive one repository, run the operation, send one result".
A `pull` is an idle worker receiving the next queued repository — possible
only while fewer than `W` repositories are held, since each worker holds at
most one at a time; a `finish` is any busy worker completing its operation
`op` and sending the result.  Results may therefore be delivered in any
order. -/
inductive PoolStep (op : RepoInfo → ResetResult) (W : Nat) :
    PoolState → PoolState → Prop
  | pull (r : RepoInfo) (rest inF : List RepoInfo)
      (res : List (RepoInfo × ResetResult)) :
      inF.length < W →
      PoolStep op W ⟨r :: rest, inF, res⟩ ⟨rest, r :: inF, res⟩
  | finish (pend inF1 inF2 : List RepoInfo) (r : RepoInfo)
      (res : List (RepoInfo × ResetResult)) :
      PoolStep op W ⟨pend, inF1 ++ r :: inF2, res⟩
        ⟨pend, inF1 ++ inF2, (r, op r) :: res⟩

/-- Reachability from the initial pool state: all repositories queued, no
worker busy, no result delivered. -/
def PoolReachable (op : RepoInfo → ResetResult) (W : Nat)
    (repos : List RepoInfo) (s : PoolState) : Prop :=
  Relation.ReflTransGen (PoolStep op W) ⟨repos, [], []⟩ s

/-- The multiset of repositories a pool state accounts for: queued, held, or
already answered. -/
def poolMultiset (s : PoolState) : Multiset RepoInfo :=
  (s.pending : Multiset RepoInfo) + (s.inFlight : Multiset RepoInfo) +
    ((s.results.map Prod.fst : List RepoInfo) : Multiset RepoInfo)

/-- The operation the sync dispatcher runs per repository in a soft run with
the sample world. -/
def sampleOp : RepoInfo → ResetResult :=
  fun r => (processSingleReset r "main" "soft" sampleRepo).1

/-- Dirty-state record of one repository produced by the preflight scan
(`repoPreflightInfo` in the source). -/
structure repoPreflightInfo where
  relPath : String
  path : String
  dirtyStatus : String
deriving DecidableEq, Repr

/-- The preflight record the scan would build for one repository. -/
def preflightInfoOf (env : RepoInfo → GitRepo) (r : RepoInfo) : repoPreflightInfo :=
  { relPath := r.relPath, path := r.path, dirtyStatus := getDirtyStatus (env r) }

/-- Embedding of `preflightScan`: every repository's dirty status is
computed, only repositories with a nonempty status contribute a record, and
the collected records are sorted by relative path.  (The concurrent workers
deliver in arbitrary order; the final sort makes the list's order
deterministic, so the sorted sequential denotation is faithful.) -/
def preflightScan (repos : List RepoInfo) (env : RepoInfo → GitRepo) :
    List repoPreflightInfo :=
  ((repos.filter fun r => getDirtyStatus (env r) != "").map
    (preflightInfoOf env)).mergeSort fun a b => a.relPath < b.relPath

example :
    (processSingleReset sampleRef "main" "soft" sampleRepo).1 =
      { relPath := "alpha", success := true } := by decide

example :
    (processSingleReset sampleRef "main" "soft"
        { sampleRepo with originExists := false }).1 =
      { relPath := "alpha", skipped := true, skipReason := "no origin remote" } := by
  decide

example :
    (processSingleReset sampleRef "main" "soft"
        { sampleRepo with remoteHash := some "aaa111" }).1 =
      { relPath := "alpha", skipped := true, skipReason := "already up to date" } := by
  decide

/-- C2: for every repository and every sync mode, `processSingleReset`
evaluates the preconditions in source order — no origin remote, no commits,
detached HEAD, target branch not a head on origin — and the first unmet one
yields an immediate skip (not a failure) with exactly the reason strings
"no origin remote", "no commits", "detached HEAD", "branch not on origin";
a remote query error that is not branch-absent instead yields a failure
whose error starts with "network error". -/
theorem processSingleReset_precondition_order
    (repo : RepoInfo) (branch mode : String) (s : GitRepo) :
    (s.originExists = false →
      (processSingleReset repo branch mode s).1 =
        { relPath := repo.relPath, skipped := true, skipReason := "no origin remote" }) ∧
    (s.originExists = true → s.hasCommits = false →
      (processSingleReset repo branch mode s).1 =
        { relPath := repo.relPath, skipped := true, skipReason := "no commits" }) ∧
    (s.originExists = true → s.hasCommits = true → checkDetachedHEAD s = true →
      (processSingleReset repo branch mode s).1 =
        { relPath := repo.relPath, skipped := true, skipReason := "detached HEAD" }) ∧
    (s.originExists = true → s.hasCommits = true → checkDetachedHEAD s = false →
      checkBranchOnOrigin s = (false, none) →
      (processSingleReset repo branch mode s).1 =
        { relPath := repo.relPath, skipped := true, skipReason := "branch not on origin" }) ∧
    (∀ e, s.originExists = true → s.hasCommits = true → checkDetachedHEAD s = false →
      (checkBranchOnOrigin s).2 = some e →
      (processSingleReset repo branch mode s).1 =
        { relPath := repo.relPath, error := "network error: " ++ e } ∧
      (processSingleReset repo branch mode s).1.skipped = false ∧
      (processSingleReset repo branch mode s).1.success = false ∧
      strStartsWith (processSingleReset repo branch mode s).1.error "network error" = true) := by
  refine ⟨fun h1 => ?_, fun h1 h2 => ?_, fun h1 h2 h3 => ?_, fun h1 h2 h3 h4 => ?_,
    fun e h1 h2 h3 h4 => ?_⟩
  · simp [processSingleReset, checkOriginExists, h1]
  · simp [processSingleReset, checkOriginExists, checkHasCommits, h1, h2]
  · simp [processSingleReset, checkOriginExists, checkHasCommits, h1, h2, h3]
  · simp [processSingleReset, checkOriginExists, checkHasCommits, h1, h2, h3, h4]
  · have hfst : (checkBranchOnOrigin s).1 = false := by
      unfold checkBranchOnOrigin at h4 ⊢
      rcases hls : s.lsRemoteHeads with _ | c
      · simp [hls] at h4
      · rcases c with code | msg
        · simp only [hls] at h4 ⊢
          by_cases hc : (code == 2) = true <;> simp [hc] at h4 ⊢
        · simp [hls]
    have h4' : checkBranchOnOrigin s = (false, some e) := by
      rcases hcb : checkBranchOnOrigin s with ⟨b, o⟩
      rw [hcb] at hfst h4
      simp at hfst h4
      simp [hfst, h4]
    have hres : (processSingleReset repo branch mode s).1 =
        { relPath := repo.relPath, error := "network error: " ++ e } := by
      simp [processSingleReset, checkOriginExists, checkHasCommits, h1, h2, h3, h4']
    have hsplit : ("network error: " : String).data =
        ("network error" : String).data ++ (": " : String).data := by decide
    refine ⟨hres, by rw [hres], by rw [hres], ?_⟩
    rw [hres]
    show strStartsWith ("network error: " ++ e) "network error" = true
    simp [strStartsWith, String.data_append, hsplit, List.append_assoc,
      List.isPrefixOf_iff_prefix]

/-- Witness for C2: each of the five precondition branches, evaluated at a
concrete repository environment. -/
theorem processSingleReset_precondition_order_witness :
    ((processSingleReset sampleRef "main" "hard" { sampleRepo with originExists := false }).1 =
      { relPath := "alpha", skipped := true, skipReason := "no origin remote" }) ∧
    ((processSingleReset sampleRef "main" "hard" { sampleRepo with hasCommits := false }).1 =
      { relPath := "alpha", skipped := true, skipReason := "no commits" }) ∧
    ((processSingleReset sampleRef "main" "hard" { sampleRepo with showCurrent := some "" }).1 =
      { relPath := "alpha", skipped := true, skipReason := "detached HEAD" }) ∧
    ((processSingleReset sampleRef "main" "hard"
        { sampleRepo with lsRemoteHeads := some (CmdErr.exit 2) }).1 =
      { relPath := "alpha", skipped := true, skipReason := "branch not on origin" }) ∧
    ((processSingleReset sampleRef "main" "hard"
        { sampleRepo with lsRemoteHeads := some (CmdErr.exit 128) }).1 =
      { relPath := "alpha", error := "network error: ls-remote failed with exit code 128" }) := by
  refine ⟨?_, ?_, ?_, ?_, ?_⟩
  · exact (processSingleReset_precondition_order sampleRef "main" "hard"
      { sampleRepo with originExists := false }).1 (by decide)
  · exact (processSingleReset_precondition_order sampleRef "main" "hard"
      { sampleRepo with hasCommits := false }).2.1 (by decide) (by decide)
  · exact (processSingleReset_precondition_order sampleRef "main" "hard"
      { sampleRepo with showCurrent := some "" }).2.2.1 (by decide) (by decide) (by decide)
  · exact (processSingleReset_precondition_order sampleRef "main" "hard"
      { sampleRepo with lsRemoteHeads := some (CmdErr.exit 2) }).2.2.2.1
      (by decide) (by decide) (by decide) (by decide)
  · exact ((processSingleReset_precondition_order sampleRef "main" "hard"
      { sampleRepo with lsRemoteHeads := some (CmdErr.exit 128) }).2.2.2.2
      "ls-remote failed with exit code 128"
      (by decide) (by decide) (by decide) (by decide)).1

/-- The hard-reset branch never reports the skip reason of the up-to-date
check. -/
lemma doHardReset_skipReason_ne (repo : RepoInfo) (branch : String) (s : GitRepo) :
    (doHardReset repo branch s).1.skipReason ≠ "already up to date" := by
  unfold doHardReset checkMidOperation
  split_ifs <;> simp <;> decide

/-- The soft-reset branch never reports the skip reason of the up-to-date
check. -/
lemma doSoftReset_skipReason_ne (repo : RepoInfo) (branch : String) (s : GitRepo) :
    (doSoftReset repo branch s).1.skipReason ≠ "already up to date" := by
  unfold doSoftReset
  split_ifs <;> simp <;> decide

/-- The rebase branch never reports the skip reason of the up-to-date
check. -/
lemma doRebase_skipReason_ne (repo : RepoInfo) (branch : String) (s : GitRepo) :
    (doRebase repo branch s).1.skipReason ≠ "already up to date" := by
  unfold doRebase
  split_ifs <;> simp <;> decide

/-- After branch alignment, the result is the up-to-date skip exactly when the
head equals the (already refreshed) `origin/<branch>` ref of the state the
check receives. -/
lemma afterAlign_uptodate_iff (repo : RepoInfo) (branch mode : String)
    (s : GitRepo) (tr : List GitCmd) :
    ((afterAlign repo branch mode s tr).1.skipped = true ∧
      (afterAlign repo branch mode s tr).1.skipReason = "already up to date") ↔
    checkAlreadyAtTarget s = true := by
  unfold afterAlign
  by_cases h : checkAlreadyAtTarget s = true
  · simp [h]
  · simp only [h]
    simp only [Bool.not_eq_true] at h
    simp [h]
    split_ifs <;>
      simp [doHardReset_skipReason_ne, doSoftReset_skipReason_ne, doRebase_skipReason_ne]

/-- The trace of the post-alignment phase always begins with the two
`rev-parse` reads of the up-to-date comparison, appended to the alignment
trace. -/
lemma afterAlign_trace (repo : RepoInfo) (branch mode : String)
    (s : GitRepo) (tr : List GitCmd) :
    ∃ rest, (afterAlign repo branch mode s tr).2 =
      tr ++ [GitCmd.revParseHead, GitCmd.revParseOriginBranch branch] ++ rest := by
  unfold afterAlign
  split_ifs <;> simp

/-- C3: for a repository that passes the preconditions and is already on the
target branch (with the fetch succeeding), `processSingleReset` refreshes the
branch from origin before the up-to-date comparison: the skip
"already up to date" happens exactly when HEAD equals the post-fetch
`origin/<branch>` ref; the executed fetch precedes both `rev-parse` reads in
the command trace; and the result is entirely independent of the pre-fetch
(possibly stale) `origin/<branch>` ref. -/
theorem processSingleReset_refetch_before_uptodate
    (repo : RepoInfo) (branch mode raw : String) (s : GitRepo)
    (h1 : s.originExists = true) (h2 : s.hasCommits = true)
    (h3 : s.showCurrent = some raw) (h4 : trimSpace raw = branch)
    (h5 : branch ≠ "") (h6 : s.lsRemoteHeads = none) (h7 : s.fetchOk = true) :
    (((processSingleReset repo branch mode s).1.skipped = true ∧
      (processSingleReset repo branch mode s).1.skipReason = "already up to date") ↔
      checkAlreadyAtTarget { s with originRef := s.remoteHash } = true) ∧
    (∃ rest, (processSingleReset repo branch mode s).2 =
      [GitCmd.remoteGetUrl, GitCmd.revParseVerifyHead, GitCmd.branchShowCurrent,
       GitCmd.lsRemoteHeads branch, GitCmd.branchShowCurrent, GitCmd.revParseIsShallow,
       GitCmd.fetchOrigin branch (isShallowRepo s), GitCmd.revParseHead,
       GitCmd.revParseOriginBranch branch] ++ rest) ∧
    (∀ v, processSingleReset repo branch mode { s with originRef := v } =
      processSingleReset repo branch mode s) := by
  have hdet : checkDetachedHEAD s = false := by
    simp [checkDetachedHEAD, h3, h4, h5]
  have hcb : checkBranchOnOrigin s = (true, none) := by
    simp [checkBranchOnOrigin, h6]
  have hcur : getCurrentBranch s = some branch := by
    simp [getCurrentBranch, h3, h4]
  have hmain : ∀ v, processSingleReset repo branch mode { s with originRef := v } =
      afterAlign repo branch mode { s with originRef := s.remoteHash }
        [GitCmd.remoteGetUrl, GitCmd.revParseVerifyHead, GitCmd.branchShowCurrent,
         GitCmd.lsRemoteHeads branch, GitCmd.branchShowCurrent, GitCmd.revParseIsShallow,
         GitCmd.fetchOrigin branch (isShallowRepo s)] := by
    intro v
    simp [processSingleReset, checkOriginExists, checkHasCommits, checkDetachedHEAD,
      checkBranchOnOrigin, getCurrentBranch, fetchBranchFromOrigin, isShallowRepo,
      h1, h2, h3, h4, h5, h6, h7]
  have hmain0 : processSingleReset repo branch mode s =
      afterAlign repo branch mode { s with originRef := s.remoteHash }
        [GitCmd.remoteGetUrl, GitCmd.revParseVerifyHead, GitCmd.branchShowCurrent,
         GitCmd.lsRemoteHeads branch, GitCmd.branchShowCurrent, GitCmd.revParseIsShallow,
         GitCmd.fetchOrigin branch (isShallowRepo s)] := by
    have := hmain s.originRef
    simpa using this
  refine ⟨?_, ?_, ?_⟩
  · rw [hmain0]
    exact afterAlign_uptodate_iff repo branch mode _ _
  · rw [hmain0]
    simpa using afterAlign_trace repo branch mode { s with originRef := s.remoteHash } _
  · intro v
    rw [hmain v, hmain0]

/-- Witness for C3: concrete healthy repository already on "main", with a
stale local `origin/main` ref; the up-to-date skip is decided by the
post-fetch ref. -/
theorem processSingleReset_refetch_before_uptodate_witness :
    ((processSingleReset sampleRef "main" "soft" sampleRepo).1.skipped = true ∧
      (processSingleReset sampleRef "main" "soft" sampleRepo).1.skipReason =
        "already up to date") ↔
    checkAlreadyAtTarget { sampleRepo with originRef := sampleRepo.remoteHash } = true :=
  (processSingleReset_refetch_before_uptodate sampleRef "main" "soft" "main\n" sampleRepo
    rfl rfl rfl (by decide) (by decide) rfl rfl).1

/-- A successful fetch only refreshes the `origin/<branch>` ref. -/
lemma fetchBranchFromOrigin_fst_char (branch : String) (s s1 : GitRepo)
    (h : (fetchBranchFromOrigin branch s).1 = some s1) :
    s1 = { s with originRef := s.remoteHash } := by
  unfold fetchBranchFromOrigin at h
  split_ifs at h <;> simp_all

/-- A successful branch switch only moves HEAD, and possibly refreshes the
`origin/<branch>` ref when it had to fetch first. -/
lemma switchToTargetBranch_fst_char (branch : String) (s s1 : GitRepo)
    (h : (switchToTargetBranch branch s).1 = some s1) :
    s1 = { s with headHash := s.headHashAfterSwitch } ∨
    s1 = { s with originRef := s.remoteHash, headHash := s.headHashAfterSwitch } := by
  unfold switchToTargetBranch fetchBranchFromOrigin at h
  by_cases hl : s.localBranchExists <;> by_cases hsw : s.switchOk <;>
    by_cases hst : s.switchTrackOk <;> by_cases hf : s.fetchOk <;>
    simp [hl, hsw, hst, hf] at h <;> simp_all

/-- The fetch trace holds no reset command. -/
lemma resetHard_not_mem_fetch (branch b : String) (s : GitRepo) :
    GitCmd.resetHard b ∉ (fetchBranchFromOrigin branch s).2 := by
  unfold fetchBranchFromOrigin
  split_ifs <;> simp

/-- The switch trace holds no reset command. -/
lemma resetHard_not_mem_switch (branch b : String) (s : GitRepo) :
    GitCmd.resetHard b ∉ (switchToTargetBranch branch s).2 := by
  unfold switchToTargetBranch fetchBranchFromOrigin
  by_cases hl : s.localBranchExists <;> by_cases hsw : s.switchOk <;>
    by_cases hst : s.switchTrackOk <;> by_cases hf : s.fetchOk <;>
    simp [hl, hsw, hst, hf]

/-- With a merge, cherry-pick or revert marker present, no branch of the
post-alignment phase runs `git reset --hard`. -/
lemma resetHard_not_mem_afterAlign (repo : RepoInfo) (branch mode b : String)
    (s : GitRepo) (tr : List GitCmd)
    (hm : (checkMidOperation s).1 = true)
    (htr : GitCmd.resetHard b ∉ tr) :
    GitCmd.resetHard b ∉ (afterAlign repo branch mode s tr).2 := by
  unfold afterAlign doHardReset doSoftReset doRebase
  simp only [hm, if_true]
  split_ifs <;> simp [htr]

/-- C4: for every repository in hard-reset mode with a merge, cherry-pick or
revert marker file present, `doHardReset` skips with reason
"mid-(operation) in progress" naming the detected operation, and the
`git reset --hard` command is never executed for that repository — neither
by `doHardReset` nor anywhere in the whole `processSingleReset` run. -/
theorem doHardReset_mid_operation_skip
    (repo : RepoInfo) (branch : String) (s : GitRepo)
    (h : s.mergeHeadPresent = true ∨ s.cherryPickHeadPresent = true ∨
      s.revertHeadPresent = true) :
    ((doHardReset repo branch s).1.skipped = true ∧
     (doHardReset repo branch s).1.success = false ∧
     (doHardReset repo branch s).1.skipReason =
       (if s.mergeHeadPresent then "mid-merge in progress"
        else if s.cherryPickHeadPresent then "mid-cherry-pick in progress"
        else "mid-revert in progress")) ∧
    (∀ b, GitCmd.resetHard b ∉ (doHardReset repo branch s).2) ∧
    (∀ mode b, GitCmd.resetHard b ∉ (processSingleReset repo branch mode s).2) := by
  have hm : (checkMidOperation s).1 = true := by
    unfold checkMidOperation
    rcases h with h | h | h <;> simp [h] <;> split_ifs <;> simp
  refine ⟨?_, ?_, ?_⟩
  · unfold doHardReset checkMidOperation
    unfold checkMidOperation at hm
    rcases h with h | h | h <;> simp [h] at hm ⊢ <;> split_ifs <;> simp_all
  · intro b
    unfold doHardReset
    simp [hm]
  · intro mode b
    unfold processSingleReset
    split_ifs with hA hB hC
    · simp
    · simp
    · simp
    · rcases hcb : checkBranchOnOrigin s with ⟨found, err⟩
      rcases err with _ | e
      · rcases found with _ | _
        · simp
        · rcases hcur : getCurrentBranch s with _ | cur
          · simp
          · by_cases hne : (cur != branch) = true
            · simp only [hne, if_true]
              rcases hsw : switchToTargetBranch branch s with ⟨os1, str⟩
              have hmem := resetHard_not_mem_switch branch b s
              rw [hsw] at hmem
              rcases os1 with _ | s1
              · simpa using hmem
              · have hs1 := switchToTargetBranch_fst_char branch s s1 (by rw [hsw])
                have hm1 : (checkMidOperation s1).1 = true := by
                  rcases hs1 with hs1 | hs1 <;> rw [hs1] <;> exact hm
                refine resetHard_not_mem_afterAlign repo branch mode b s1 _ hm1 ?_
                simp only [List.mem_cons] at hmem ⊢
                simp_all
            · simp only [Bool.not_eq_true] at hne
              simp only [hne, Bool.false_eq_true, if_false]
              rcases hf : fetchBranchFromOrigin branch s with ⟨os1, ftr⟩
              have hmem := resetHard_not_mem_fetch branch b s
              rw [hf] at hmem
              rcases os1 with _ | s1
              · simpa using hmem
              · have hs1 := fetchBranchFromOrigin_fst_char branch s s1 (by rw [hf])
                have hm1 : (checkMidOperation s1).1 = true := by
                  rw [hs1]; exact hm
                refine resetHard_not_mem_afterAlign repo branch mode b s1 _ hm1 ?_
                simp only [List.mem_cons] at hmem ⊢
                simp_all
      · simp

/-- Witness for C4: a repository with `.git/MERGE_HEAD` present skips the
hard reset with the merge reason and never runs the reset command. -/
theorem doHardReset_mid_operation_skip_witness :
    ((doHardReset sampleRef "main" { sampleRepo with mergeHeadPresent := true }).1.skipped =
      true) ∧
    ((doHardReset sampleRef "main" { sampleRepo with mergeHeadPresent := true }).1.skipReason =
      "mid-merge in progress") ∧
    GitCmd.resetHard "main" ∉
      (processSingleReset sampleRef "main" "hard"
        { sampleRepo with mergeHeadPresent := true }).2 := by
  have h := doHardReset_mid_operation_skip sampleRef "main"
    { sampleRepo with mergeHeadPresent := true } (Or.inl rfl)
  refine ⟨h.1.1, ?_, h.2.2 "hard" "main"⟩
  rw [h.1.2.2]
  decide

/-- C5: in rebase mode, `doRebase` skips with reason
"rebase already in progress" when a rebase marker directory exists; fails
with "working tree must be clean" when the tree is dirty, without attempting
the rebase; on rebase failure runs `git rebase --abort` and reports
"conflict during rebase, aborted" when the abort succeeds, and
"conflict during rebase; abort failed — manual cleanup required" when the
abort itself fails. -/
theorem doRebase_behavior (repo : RepoInfo) (branch : String) (s : GitRepo) :
    (checkRebaseInProgress s = true →
      (doRebase repo branch s).1 =
        { relPath := repo.relPath, skipped := true,
          skipReason := "rebase already in progress" } ∧
      (doRebase repo branch s).2 = []) ∧
    (checkRebaseInProgress s = false → getDirtyStatus s ≠ "" →
      (doRebase repo branch s).1 =
        { relPath := repo.relPath, error := "working tree must be clean" } ∧
      GitCmd.gitRebase branch ∉ (doRebase repo branch s).2) ∧
    (checkRebaseInProgress s = false → getDirtyStatus s = "" → s.rebaseOk = false →
      s.rebaseAbortOk = true →
      (doRebase repo branch s).1 =
        { relPath := repo.relPath, error := "conflict during rebase, aborted" } ∧
      (doRebase repo branch s).2 =
        [GitCmd.statusPorcelain, GitCmd.gitRebase branch, GitCmd.rebaseAbort]) ∧
    (checkRebaseInProgress s = false → getDirtyStatus s = "" → s.rebaseOk = false →
      s.rebaseAbortOk = false →
      (doRebase repo branch s).1 =
        { relPath := repo.relPath,
          error := "conflict during rebase; abort failed — manual cleanup required" } ∧
      (doRebase repo branch s).2 =
        [GitCmd.statusPorcelain, GitCmd.gitRebase branch, GitCmd.rebaseAbort]) := by
  refine ⟨fun h1 => ?_, fun h1 h2 => ?_, fun h1 h2 h3 h4 => ?_, fun h1 h2 h3 h4 => ?_⟩ <;>
    unfold doRebase <;> simp_all

/-- Witness for C5: the four rebase branches at concrete repository
environments. -/
theorem doRebase_behavior_witness :
    ((doRebase sampleRef "main" { sampleRepo with rebaseMergePresent := true }).1 =
      { relPath := "alpha", skipped := true,
        skipReason := "rebase already in progress" }) ∧
    ((doRebase sampleRef "main" { sampleRepo with statusPorcelain := some " M a.txt" }).1 =
      { relPath := "alpha", error := "working tree must be clean" }) ∧
    ((doRebase sampleRef "main" { sampleRepo with rebaseOk := false }).1 =
      { relPath := "alpha", error := "conflict during rebase, aborted" }) ∧
    ((doRebase sampleRef "main"
        { sampleRepo with rebaseOk := false, rebaseAbortOk := false }).1 =
      { relPath := "alpha",
        error := "conflict during rebase; abort failed — manual cleanup required" }) := by
  refine ⟨?_, ?_, ?_, ?_⟩
  · exact ((doRebase_behavior sampleRef "main"
      { sampleRepo with rebaseMergePresent := true }).1 (by decide)).1
  · exact ((doRebase_behavior sampleRef "main"
      { sampleRepo with statusPorcelain := some " M a.txt" }).2.1
      (by decide) (by decide)).1
  · exact ((doRebase_behavior sampleRef "main"
      { sampleRepo with rebaseOk := false }).2.2.1
      (by decide) (by decide) (by decide) (by decide)).1
  · exact ((doRebase_behavior sampleRef "main"
      { sampleRepo with rebaseOk := false, rebaseAbortOk := false }).2.2.2
      (by decide) (by decide) (by decide) (by decide)).1

/-- Full case analysis of the three-attempt retry loop. -/
lemma executeGitCommandWithRetry_unfold (env : Nat → AttemptOutcome) :
    executeGitCommandWithRetry env =
    match env 0 with
    | .ok out => ⟨out, none, 0, [.ran 0]⟩
    | .failErr out m => ⟨out, some m, 0, [.ran 0]⟩
    | .timeoutErr _ _ =>
      match env 1 with
      | .ok out => ⟨out, none, 1, [.ran 0, .slept, .ran 1]⟩
      | .failErr out m => ⟨out, some m, 1, [.ran 0, .slept, .ran 1]⟩
      | .timeoutErr _ _ =>
        match env 2 with
        | .ok out => ⟨out, none, 2, [.ran 0, .slept, .ran 1, .slept, .ran 2]⟩
        | .failErr out m => ⟨out, some m, 2, [.ran 0, .slept, .ran 1, .slept, .ran 2]⟩
        | .timeoutErr out m =>
            ⟨out, some m, 2, [.ran 0, .slept, .ran 1, .slept, .ran 2]⟩ := by
  rcases h0 : env 0 <;> rcases h1 : env 1 <;> rcases h2 : env 2 <;>
    simp [executeGitCommandWithRetry, retryLoop, maxRetries, h0, h1, h2]

/-- C7: `executeGitCommandWithRetry` uses a hard 5-minute per-attempt timeout
and at most 3 attempts; the 2-second delay is inserted before a retry only
when the previous attempt's failure was a timeout; a non-timeout failure on
the first attempt is returned immediately, with that attempt's output and a
retry count of 0; and in every run the retry count is the number of attempts
minus one. -/
theorem executeGitCommandWithRetry_spec (env : Nat → AttemptOutcome) :
    (gitCommandTimeout = 5 * minute ∧ maxRetries = 3 ∧ retryDelay = 2 * second) ∧
    (executeGitCommandWithRetry env).events.countP (fun e => isRanEvent e) ≤ 3 ∧
    (∀ i, RetryEvent.ran (i + 1) ∈ (executeGitCommandWithRetry env).events →
      ∃ out m, env i = AttemptOutcome.timeoutErr out m) ∧
    ((executeGitCommandWithRetry env).events.count RetryEvent.slept + 1 =
      (executeGitCommandWithRetry env).events.countP (fun e => isRanEvent e)) ∧
    ((executeGitCommandWithRetry env).retries + 1 =
      (executeGitCommandWithRetry env).events.countP (fun e => isRanEvent e)) ∧
    (∀ out m, env 0 = AttemptOutcome.failErr out m →
      executeGitCommandWithRetry env =
        { output := out, error := some m, retries := 0, events := [RetryEvent.ran 0] }) := by
  refine ⟨⟨rfl, rfl, rfl⟩, ?_, ?_, ?_, ?_, ?_⟩
  · rw [executeGitCommandWithRetry_unfold]
    rcases h0 : env 0 <;> rcases h1 : env 1 <;> rcases h2 : env 2 <;> simp [isRanEvent]
  · rw [executeGitCommandWithRetry_unfold]
    rcases h0 : env 0 <;> rcases h1 : env 1 <;> rcases h2 : env 2 <;>
      intro i hmem <;> simp_all <;>
      rcases hmem with rfl | rfl <;> simp_all
  · rw [executeGitCommandWithRetry_unfold]
    rcases h0 : env 0 <;> rcases h1 : env 1 <;> rcases h2 : env 2 <;> simp [isRanEvent]
  · rw [executeGitCommandWithRetry_unfold]
    rcases h0 : env 0 <;> rcases h1 : env 1 <;> rcases h2 : env 2 <;> simp [isRanEvent]
  · rw [executeGitCommandWithRetry_unfold]
    rcases h0 : env 0 <;> intro out m heq <;> simp_all

/-- Witness for C7: a run whose first attempt fails with a non-timeout error
returns immediately after that single attempt. -/
theorem executeGitCommandWithRetry_spec_witness :
    executeGitCommandWithRetry
        (fun _ => AttemptOutcome.failErr "fatal: not a git repository" "exit status 128") =
      { output := "fatal: not a git repository", error := some "exit status 128",
        retries := 0, events := [RetryEvent.ran 0] } :=
  (executeGitCommandWithRetry_spec
      (fun _ => AttemptOutcome.failErr "fatal: not a git repository" "exit status 128")).2.2.2.2.2
    "fatal: not a git repository" "exit status 128" rfl

/-- Counterexample for C8: the two execution modes the claim names do not
share retry and timeout semantics.  For a command whose first invocation
outlives the 5-minute deadline and whose second invocation succeeds, the
in-memory buffered executor times the first attempt out, sleeps, retries and
succeeds (two attempts, no error), while the log-streaming fetch of the
reset module launches exactly one invocation, never times it out, never
retries, and fails. -/
theorem streaming_fetch_retry_semantics_counterexample :
    (executeGitCommandWithRetry (fun i => attemptOutcome (cexSpecs i))).error = none ∧
    (executeGitCommandWithRetry (fun i => attemptOutcome (cexSpecs i))).events =
      [RetryEvent.ran 0, RetryEvent.slept, RetryEvent.ran 1] ∧
    (fetchStreamExec cexSpecs).1 = some "fetch failed" ∧
    (fetchStreamExec cexSpecs).2 = [RetryEvent.ran 0] ∧
    (executeGitCommandWithRetry (fun i => attemptOutcome (cexSpecs i))).events ≠
      (fetchStreamExec cexSpecs).2 := by
  decide

/-- C8 (amended): the in-memory buffered executor and the dedicated log-file
streaming executor `executeGitCommandWithRetryToFile` have identical retry
and timeout semantics — the same per-attempt outcomes yield the same error,
the same retry count and the same attempt/sleep trace — but the log-streaming
git invocations of the sync state machine (such as `fetchBranchFromOrigin`)
do not go through that executor: each launches its command exactly once,
with no timeout and no retry. -/
theorem executors_retry_semantics (env : Nat → AttemptOutcome)
    (specs : Nat → AttemptSpec) :
    ((executeGitCommandWithRetryToFile env).1 = (executeGitCommandWithRetry env).retries ∧
     (executeGitCommandWithRetryToFile env).2.1 = (executeGitCommandWithRetry env).error ∧
     (executeGitCommandWithRetryToFile env).2.2 = (executeGitCommandWithRetry env).events) ∧
    ((fetchStreamExec specs).2 = [RetryEvent.ran 0] ∧
     ((fetchStreamExec specs).1 = none ↔ (specs 0).succeeds = true)) := by
  constructor
  · rcases h0 : env 0 <;> rcases h1 : env 1 <;> rcases h2 : env 2 <;>
      simp [executeGitCommandWithRetryToFile, retryToFileLoop,
        executeGitCommandWithRetry, retryLoop, maxRetries, h0, h1, h2]
  · unfold fetchStreamExec
    by_cases hs : (specs 0).succeeds <;> simp [hs]

/-- C6: when the mode is hard or rebase and standard input is not an
interactive terminal, the whole run fails with a process-level error before
any repository operation is dispatched — the command trace is empty, so no
repository is touched; in soft mode no terminal check or confirmation is
consulted (the outcome is invariant under both), and once the log manager is
up the dispatch proceeds unconditionally over all selected repositories. -/
theorem syncBranch_destructive_gate (branch mode : String) (workers : Nat)
    (cfg : Config) (env : SyncEnv) (allRepos : List RepoInfo)
    (hd : env.discovered = some allRepos)
    (hne : allRepos.length ≠ 0)
    (hfil : (filterReposForExecution cfg allRepos).length ≠ 0) :
    ((mode = "hard" ∨ mode = "rebase") → env.stdinIsTTY = false →
      syncBranch branch mode workers cfg env =
        (SyncOutcome.fatalExit "stdin is not a terminal", [])) ∧
    (∀ tty conf,
      syncBranch branch "soft" workers cfg
          { env with stdinIsTTY := tty, confirm := conf } =
        syncBranch branch "soft" workers cfg env) ∧
    (env.logManagerOk = true →
      (syncBranch branch "soft" workers cfg env).1 =
        SyncOutcome.finished
          (runDispatch branch "soft" (filterReposForExecution cfg allRepos) env).1
          (0 < (aggregate
            (runDispatch branch "soft" (filterReposForExecution cfg allRepos) env).1).2.1)) := by
  refine ⟨fun hmode htty => ?_, fun tty conf => ?_, fun hlog => ?_⟩
  · rcases hmode with hmode | hmode <;> subst hmode <;>
      simp [syncBranch, hd, hne, hfil, htty]
  · simp [syncBranch, hd, hne, hfil, runDispatch]
  · simp [syncBranch, hd, hne, hfil, hlog]

/-- Witness for C6: with one healthy repository discovered, a hard-mode run
without a terminal exits fatally with an empty trace, and a soft-mode run
reaches dispatch. -/
theorem syncBranch_destructive_gate_witness :
    (syncBranch "main" "hard" 20 sampleCfg { sampleEnv with stdinIsTTY := false } =
      (SyncOutcome.fatalExit "stdin is not a terminal", [])) ∧
    ((syncBranch "main" "soft" 20 sampleCfg sampleEnv).1 =
      SyncOutcome.finished
        (runDispatch "main" "soft" (filterReposForExecution sampleCfg [sampleRef])
          sampleEnv).1
        (0 < (aggregate (runDispatch "main" "soft"
          (filterReposForExecution sampleCfg [sampleRef]) sampleEnv).1).2.1)) := by
  constructor
  · exact (syncBranch_destructive_gate "main" "hard" 20 sampleCfg
      { sampleEnv with stdinIsTTY := false } [sampleRef] rfl (by decide) (by decide)).1
      (Or.inl rfl) rfl
  · exact (syncBranch_destructive_gate "main" "soft" 20 sampleCfg sampleEnv [sampleRef]
      rfl (by decide) (by decide)).2.2 rfl

/-- Hard reset never returns a result that is both skipped and successful. -/
lemma doHardReset_excl (repo : RepoInfo) (branch : String) (s : GitRepo) :
    ¬((doHardReset repo branch s).1.skipped = true ∧
      (doHardReset repo branch s).1.success = true) := by
  unfold doHardReset
  split_ifs <;> simp

/-- Soft reset never returns a result that is both skipped and successful. -/
lemma doSoftReset_excl (repo : RepoInfo) (branch : String) (s : GitRepo) :
    ¬((doSoftReset repo branch s).1.skipped = true ∧
      (doSoftReset repo branch s).1.success = true) := by
  unfold doSoftReset
  split_ifs <;> simp

/-- Rebase never returns a result that is both skipped and successful. -/
lemma doRebase_excl (repo : RepoInfo) (branch : String) (s : GitRepo) :
    ¬((doRebase repo branch s).1.skipped = true ∧
      (doRebase repo branch s).1.success = true) := by
  unfold doRebase
  split_ifs <;> simp

/-- The post-alignment phase never returns a result that is both skipped and
successful. -/
lemma afterAlign_excl (repo : RepoInfo) (branch mode : String) (s : GitRepo)
    (tr : List GitCmd) :
    ¬((afterAlign repo branch mode s tr).1.skipped = true ∧
      (afterAlign repo branch mode s tr).1.success = true) := by
  unfold afterAlign
  split_ifs <;>
    first
      | exact doHardReset_excl repo branch s
      | exact doSoftReset_excl repo branch s
      | exact doRebase_excl repo branch s
      | simp

/-- No result of the per-repository sync state machine is both skipped and
successful. -/
lemma processSingleReset_excl (repo : RepoInfo) (branch mode : String)
    (s : GitRepo) :
    ¬((processSingleReset repo branch mode s).1.skipped = true ∧
      (processSingleReset repo branch mode s).1.success = true) := by
  unfold processSingleReset
  split_ifs with hA hB hC
  · simp
  · simp
  · simp
  · rcases hcb : checkBranchOnOrigin s with ⟨found, err⟩
    rcases err with _ | e
    · rcases found with _ | _
      · simp
      · rcases hcur : getCurrentBranch s with _ | cur
        · simp
        · by_cases hne : (cur != branch) = true
          · simp only [hne, if_true]
            rcases hsw : switchToTargetBranch branch s with ⟨os1, str⟩
            rcases os1 with _ | s1
            · simp
            · exact afterAlign_excl repo branch mode s1 _
          · simp only [Bool.not_eq_true] at hne
            simp only [hne, Bool.false_eq_true, if_false]
            rcases hf : fetchBranchFromOrigin branch s with ⟨os1, ftr⟩
            rcases os1 with _ | s1
            · simp
            · exact afterAlign_excl repo branch mode s1 _
    · simp

/-- The three aggregation counters are exactly the counts of the three
mutually exclusive result classes, in the priority order of the source's
switch statement. -/
lemma aggregate_counts (results : List ResetResult) :
    aggregate results =
      (results.countP (fun r => !r.skipped && r.success),
       results.countP (fun r => !r.skipped && !r.success),
       results.countP (fun r => r.skipped)) := by
  have h : ∀ (l : List ResetResult) (acc : Nat × Nat × Nat),
      l.foldl
        (fun acc res =>
          if res.skipped then (acc.1, acc.2.1, acc.2.2 + 1)
          else if res.success then (acc.1 + 1, acc.2.1, acc.2.2)
          else (acc.1, acc.2.1 + 1, acc.2.2)) acc =
      (acc.1 + l.countP (fun r => !r.skipped && r.success),
       acc.2.1 + l.countP (fun r => !r.skipped && !r.success),
       acc.2.2 + l.countP (fun r => r.skipped)) := by
    intro l
    induction l with
    | nil => intro acc; simp
    | cons hd tl ih =>
        intro acc
        simp only [List.foldl_cons, List.countP_cons]
        by_cases h1 : hd.skipped <;> by_cases h2 : hd.success <;>
          simp [h1, h2, ih] <;> omega
  unfold aggregate
  rw [h results (0, 0, 0)]
  simp

/-- In a completed run the exit flag is, by construction, the verdict
`failed > 0` of the aggregation. -/
lemma syncBranch_finished_flag (branch mode : String) (workers : Nat)
    (cfg : Config) (env : SyncEnv) (results : List ResetResult) (exitOne : Bool)
    (hfin : (syncBranch branch mode workers cfg env).1 =
      SyncOutcome.finished results exitOne) :
    exitOne = decide (0 < (aggregate results).2.1) := by
  unfold syncBranch at hfin
  rcases henv : env.discovered with _ | allRepos <;> rw [henv] at hfin
  · simp at hfin
  · by_cases hA : (allRepos.length == 0) = true <;>
      by_cases hB : ((filterReposForExecution cfg allRepos).length == 0) = true <;>
      by_cases hC : (mode == "hard" || mode == "rebase") = true <;>
      by_cases hT : (!env.stdinIsTTY) = true <;>
      by_cases hCf : (!env.confirm) = true <;>
      by_cases hL : (!env.logManagerOk) = true <;>
      simp [hA, hB, hC, hT, hCf, hL] at hfin <;>
      (obtain ⟨h1, h2⟩ := hfin; subst h1; exact h2.symm)

/-- C9: no `ResetResult` produced by the sync state machine has `Skipped`
and `Success` both true; aggregation counts every result in exactly one of
succeeded/failed/skipped, never counting a skip as a failure; and a
completed `syncBranch` run fires its final `os.Exit(1)` exactly when some
repository's result is a failure (neither success nor skip). -/
theorem syncBranch_aggregation_exit (branch mode : String) (workers : Nat)
    (cfg : Config) (env : SyncEnv) :
    (∀ repo s, ¬((processSingleReset repo branch mode s).1.skipped = true ∧
      (processSingleReset repo branch mode s).1.success = true)) ∧
    (∀ results : List ResetResult,
      (aggregate results).1 + (aggregate results).2.1 + (aggregate results).2.2 =
        results.length) ∧
    (∀ results : List ResetResult,
      (aggregate results).2.1 =
        results.countP (fun r => !r.skipped && !r.success)) ∧
    (∀ results exitOne,
      (syncBranch branch mode workers cfg env).1 = SyncOutcome.finished results exitOne →
      (exitOne = true ↔
        ∃ res ∈ results, res.skipped = false ∧ res.success = false)) := by
  refine ⟨fun repo s => processSingleReset_excl repo branch mode s, ?_, ?_, ?_⟩
  · intro results
    rw [aggregate_counts]
    have h : results.countP (fun r => !r.skipped && r.success) +
        results.countP (fun r => !r.skipped && !r.success) +
        results.countP (fun r => r.skipped) = results.length := by
      induction results with
      | nil => simp
      | cons hd tl ih =>
          simp only [List.countP_cons, List.length_cons]
          by_cases h1 : hd.skipped <;> by_cases h2 : hd.success <;>
            simp [h1, h2] <;> omega
    simpa using h
  · intro results
    rw [aggregate_counts]
  · intro results exitOne hfin
    have hflag' : exitOne = decide (0 < (aggregate results).2.1) :=
      syncBranch_finished_flag branch mode workers cfg env results exitOne hfin
    rw [hflag']
    rw [aggregate_counts]
    simp only [decide_eq_true_eq]
    rw [List.countP_pos_iff]
    constructor
    · rintro ⟨res, hmem, hp⟩
      exact ⟨res, hmem, by simpa using hp⟩
    · rintro ⟨res, hmem, h1, h2⟩
      exact ⟨res, hmem, by simp [h1, h2]⟩

/-- Witness for C9: a two-repository soft run — one repository already up to
date (a skip), one failing its reset — exits with status 1, counting one
skip and one failure. -/
theorem syncBranch_aggregation_exit_witness :
    (aggregate [{ relPath := "alpha", skipped := true, skipReason := "already up to date" },
                { relPath := "beta", error := "reset --soft failed" }] = (0, 1, 1)) ∧
    (true = true ↔ ∃ res ∈
        [({ relPath := "alpha", skipped := true, skipReason := "already up to date" } :
            ResetResult),
         { relPath := "beta", error := "reset --soft failed" }],
      res.skipped = false ∧ res.success = false) := by
  constructor
  · decide
  · have h := (syncBranch_aggregation_exit "main" "soft" 20 sampleCfg
      { sampleEnv with
          discovered := some [sampleRef, { path := "/work/beta", relPath := "beta" }],
          repoEnv := fun r =>
            if r.relPath == "alpha" then { sampleRepo with remoteHash := some "aaa111" }
            else { sampleRepo with resetSoftOk := false } }).2.2.2
    exact h _ _ (by decide)

/-- Every pool step conserves the repository multiset, keeps at most `W`
operations in flight, and only ever records `op r` as repository `r`'s
result. -/
lemma poolStep_preserves (op : RepoInfo → ResetResult) (W : Nat)
    (s1 s2 : PoolState) (h : PoolStep op W s1 s2) :
    poolMultiset s2 = poolMultiset s1 ∧
    (s1.inFlight.length ≤ W → s2.inFlight.length ≤ W) ∧
    ((∀ p ∈ s1.results, p.2 = op p.1) → ∀ p ∈ s2.results, p.2 = op p.1) := by
  cases h with
  | pull r rest inF res hlt =>
      refine ⟨?_, fun _ => hlt, fun hp => hp⟩
      simp [poolMultiset, Multiset.add_cons, Multiset.cons_add]
  | finish pend inF1 inF2 r res =>
      refine ⟨?_, fun hle => ?_, fun hp => ?_⟩
      · simp only [poolMultiset, List.map_cons]
        simp [Multiset.add_cons, Multiset.cons_add]
        exact List.Perm.append_left pend (List.Perm.append_left inF1 List.perm_middle)
      · simp at hle ⊢
        omega
      · intro p hpmem
        rcases List.mem_cons.mp hpmem with hpeq | hpmem
        · rw [hpeq]
        · exact hp p hpmem

/-- Invariants of every reachable pool state. -/
lemma poolReachable_invariant (op : RepoInfo → ResetResult) (W : Nat)
    (repos : List RepoInfo) (s : PoolState)
    (hreach : PoolReachable op W repos s) :
    poolMultiset s = (repos : Multiset RepoInfo) ∧
    s.inFlight.length ≤ W ∧
    (∀ p ∈ s.results, p.2 = op p.1) := by
  induction hreach with
  | refl => simp [poolMultiset]
  | tail hsteps hstep ih =>
      obtain ⟨hmul, hlen, hres⟩ := poolStep_preserves op W _ _ hstep
      exact ⟨hmul.trans ih.1, hlen ih.2.1, hres ih.2.2⟩

/-- Any non-terminal pool state can step, given at least one worker. -/
lemma poolStep_progress (op : RepoInfo → ResetResult) (W : Nat) (s : PoolState)
    (hW : 1 ≤ W) (hnt : ¬(s.pending = [] ∧ s.inFlight = [])) :
    ∃ s2, PoolStep op W s s2 := by
  rcases s with ⟨pending, inFlight, res⟩
  rcases pending with _ | ⟨r, rest⟩
  · rcases inFlight with _ | ⟨q, qrest⟩
    · exact absurd ⟨rfl, rfl⟩ hnt
    · exact ⟨_, PoolStep.finish [] [] qrest q res⟩
  · by_cases hlt : inFlight.length < W
    · exact ⟨_, PoolStep.pull r rest inFlight res hlt⟩
    · rcases inFlight with _ | ⟨q, qrest⟩
      · simp at hlt
        omega
      · exact ⟨_, PoolStep.finish (r :: rest) [] qrest q res⟩

/-- C1: for every repository list and every worker count `W ≥ 1`, along any
interleaving of `syncBranch`'s worker pool: at most `W` operations are in
flight at any reachable state; every delivered record is the operation's
result for its repository; in any terminal state (queue drained, no worker
busy) exactly `N` results have been delivered and each repository occurs in
them exactly as often as it was queued — so each operation ran exactly once;
and no non-terminal reachable state is stuck. -/
theorem syncBranch_dispatcher_invariant (op : RepoInfo → ResetResult) (W : Nat)
    (repos : List RepoInfo) (s : PoolState) (hW : 1 ≤ W)
    (hreach : PoolReachable op W repos s) :
    s.inFlight.length ≤ W ∧
    (∀ p ∈ s.results, p.2 = op p.1) ∧
    (s.pending = [] ∧ s.inFlight = [] →
      s.results.length = repos.length ∧
      ∀ r, (s.results.map Prod.fst).count r = repos.count r) ∧
    (¬(s.pending = [] ∧ s.inFlight = []) → ∃ s2, PoolStep op W s s2) := by
  obtain ⟨hmul, hlen, hres⟩ := poolReachable_invariant op W repos s hreach
  refine ⟨hlen, hres, fun hterm => ?_, fun hnt => poolStep_progress op W s hW hnt⟩
  have hperm : (s.results.map Prod.fst).Perm repos := by
    apply Multiset.coe_eq_coe.mp
    have := hmul
    rw [poolMultiset, hterm.1, hterm.2] at this
    simpa using this
  constructor
  · have := hperm.length_eq
    simpa using this
  · exact fun r => hperm.count_eq r

/-- Witness for C1: with one repository and one worker, pulling it and
finishing it reaches the terminal state, where exactly one result was
delivered. -/
theorem syncBranch_dispatcher_invariant_witness :
    (⟨[], [], [(sampleRef, sampleOp sampleRef)]⟩ : PoolState).results.length =
      [sampleRef].length := by
  have hreach : PoolReachable sampleOp 1 [sampleRef]
      ⟨[], [], [(sampleRef, sampleOp sampleRef)]⟩ :=
    Relation.ReflTransGen.head (PoolStep.pull sampleRef [] [] [] (by decide))
      (Relation.ReflTransGen.single (PoolStep.finish [] [] [] sampleRef []))
  exact ((syncBranch_dispatcher_invariant sampleOp 1 [sampleRef]
      ⟨[], [], [(sampleRef, sampleOp sampleRef)]⟩ (by decide) hreach).2.2.1
    ⟨rfl, rfl⟩).1

/-- C10: a repository in which `git status --porcelain` itself fails is
classified as clean — `getDirtyStatus` returns the empty string — so it
contributes no record to the preflight dirty list (every record of the scan
stems from a repository whose dirty status is nonempty), and in rebase mode
the "working tree must be clean" failure branch is not taken for it: with no
rebase marker present the rebase is attempted. -/
theorem getDirtyStatus_error_is_clean (repos : List RepoInfo)
    (env : RepoInfo → GitRepo) (repo : RepoInfo) (branch : String) (s : GitRepo) :
    (s.statusPorcelain = none → getDirtyStatus s = "") ∧
    (∀ info ∈ preflightScan repos env,
      ∃ r ∈ repos, info = preflightInfoOf env r ∧ getDirtyStatus (env r) ≠ "") ∧
    (s.statusPorcelain = none → s.rebaseMergePresent = false →
      s.rebaseApplyPresent = false →
      (doRebase repo branch s).1.error ≠ "working tree must be clean" ∧
      GitCmd.gitRebase branch ∈ (doRebase repo branch s).2) := by
  refine ⟨fun h => by simp [getDirtyStatus, h], ?_, fun h1 h2 h3 => ?_⟩
  · intro info hmem
    rw [preflightScan, List.mem_mergeSort] at hmem
    rcases List.mem_map.mp hmem with ⟨r, hr, hinfo⟩
    rcases List.mem_filter.mp hr with ⟨hrepos, hdirty⟩
    exact ⟨r, hrepos, hinfo.symm, by simpa using hdirty⟩
  · have hclean : getDirtyStatus s = "" := by simp [getDirtyStatus, h1]
    have hnorebase : checkRebaseInProgress s = false := by
      simp [checkRebaseInProgress, h2, h3]
    unfold doRebase
    rw [hnorebase]
    simp [hclean]
    split_ifs <;> simp <;> decide

/-- Witness for C10: a repository whose status command errors is clean, is
absent from the preflight list, and reaches the rebase attempt. -/
theorem getDirtyStatus_error_is_clean_witness :
    (getDirtyStatus { sampleRepo with statusPorcelain := none } = "") ∧
    ((doRebase sampleRef "main" { sampleRepo with statusPorcelain := none }).1.error ≠
      "working tree must be clean") ∧
    GitCmd.gitRebase "main" ∈
      (doRebase sampleRef "main" { sampleRepo with statusPorcelain := none }).2 := by
  have h := getDirtyStatus_error_is_clean [sampleRef]
    (fun _ => { sampleRepo with statusPorcelain := none }) sampleRef "main"
    { sampleRepo with statusPorcelain := none }
  exact ⟨h.1 rfl, (h.2.2 rfl rfl rfl).1, (h.2.2 rfl rfl rfl).2⟩

end GB

